import Mathlib

/-!
Verification of the TaxoFetch resolution and ranking engine
(src/taxofetch.py) against its specification.

The Python source is shallowly embedded: a pandas dataframe row becomes a
`CatalogRecord` (cells of a `dtype=str` dataframe are either a string or
NaN, modelled as `Option String`; the `data_source` column is assigned by
the program itself and is always a present string), a dataframe becomes a
`List CatalogRecord`, and the per-name resolution loop of `main` becomes
the pure function `resolve`.
-/

namespace TaxoFetch

/-- One row of a merged assembly-summary dataframe, as read with
`dtype=str` and tagged with its `data_source`.  Fields that can be NaN in
the dataframe are `Option String` (with `none` for NaN). -/
structure CatalogRecord where
  organism_name : Option String
  assembly_accession : String
  refseq_category : Option String
  assembly_level : Option String
  ftp_path : Option String
  data_source : String
deriving DecidableEq

/-- Status of one resolution outcome: the `status` field of the dict that
`main` appends to `to_download` for each input species.  The fallback
status of the Python code is the string `FALLBACK (<organism_name>)`,
which carries the matched organism name; it is embedded as a constructor
holding that (possibly NaN) cell. -/
inductive Status where
  | exactMatch
  | fallback (matched : Option String)
  | notFound
deriving DecidableEq

/-- One entry of `to_download`: the per-species dict built by `main`.
`url` and `level` are copied from dataframe cells that can be NaN, so they
are `Option String`; in the NOT_FOUND branch the code stores the literal
strings shown in the report. -/
structure Outcome where
  name : String
  source : String
  accession : String
  url : Option String
  status : Status
  level : Option String
deriving DecidableEq

/-- The `cat_map` dict of `rank_assemblies`:
`{'reference genome': 3, 'representative genome': 2, 'na': 1}`; `none`
models a key that is absent from the dict (pandas `.map` yields NaN). -/
def cat_map (s : String) : Option Nat :=
  if s = "reference genome" then some 3
  else if s = "representative genome" then some 2
  else if s = "na" then some 1
  else none

/-- The `level_map` dict of `rank_assemblies`:
`{'Complete Genome': 4, 'Chromosome': 3, 'Scaffold': 2, 'Contig': 1}`. -/
def level_map (s : String) : Option Nat :=
  if s = "Complete Genome" then some 4
  else if s = "Chromosome" then some 3
  else if s = "Scaffold" then some 2
  else if s = "Contig" then some 1
  else none

/-- The `source_map` dict of `rank_assemblies`:
`{'REFSEQ': 2, 'GENBANK': 1}`. -/
def source_map (s : String) : Option Nat :=
  if s = "REFSEQ" then some 2
  else if s = "GENBANK" then some 1
  else none

/-- `group_df['refseq_category'].map(cat_map).fillna(0)`: a NaN cell maps
to NaN and a cell absent from the dict maps to NaN; `fillna(0)` turns
either into 0. -/
def cat_score (r : CatalogRecord) : Nat :=
  (r.refseq_category.bind cat_map).getD 0

/-- `group_df['assembly_level'].map(level_map).fillna(0)`. -/
def lvl_score (r : CatalogRecord) : Nat :=
  (r.assembly_level.bind level_map).getD 0

/-- `group_df['data_source'].map(source_map).fillna(0)`; `data_source` is
always a present string, assigned at ingestion. -/
def src_score (r : CatalogRecord) : Nat :=
  (source_map r.data_source).getD 0

/-- The sort key of `rank_assemblies`: the columns
`['cat_score', 'lvl_score', 'src_score', 'assembly_accession']`, all
sorted with `ascending=False`. -/
def rankKey (r : CatalogRecord) : Nat × Nat × Nat × String :=
  (cat_score r, lvl_score r, src_score r, r.assembly_accession)

/-- One level of strict lexicographic comparison: compare the numeric
component first, and on a tie fall through to the comparison of the
remaining components. -/
def lexNat {α : Type} (lt : α → α → Prop) (a b : Nat × α) : Prop :=
  a.1 < b.1 ∨ (a.1 = b.1 ∧ lt a.2 b.2)

instance lexNatDec {α : Type} (lt : α → α → Prop) [DecidableEq α]
    [h : ∀ x y : α, Decidable (lt x y)] (a b : Nat × α) : Decidable (lexNat lt a b) := by
  unfold lexNat; exact inferInstance

/-- The strict order on accession strings: the ordinary code-point
lexicographic order that Python uses to sort object columns. -/
def strLt (a b : String) : Prop := a < b

instance strLtDec (a b : String) : Decidable (strLt a b) := by
  unfold strLt; exact inferInstance

/-- Strict lexicographic order on the 4-part sort key. -/
def keyLt : Nat × Nat × Nat × String → Nat × Nat × Nat × String → Prop :=
  lexNat (lexNat (lexNat strLt))

instance keyLtDec (a b : Nat × Nat × Nat × String) : Decidable (keyLt a b) := by
  unfold keyLt; exact inferInstance

/-- One comparison step of selecting the best-ranked record: keep `best`
unless `x` has a strictly greater sort key. -/
def betterOf (best x : CatalogRecord) : CatalogRecord :=
  if keyLt (rankKey best) (rankKey x) then x else best

/-- `rank_assemblies(group_df)`: sort descending by
`(cat_score, lvl_score, src_score, assembly_accession)` and take
`iloc[0]`, i.e. return a record whose key is greatest.  On an empty frame
`iloc[0]` raises, modelled by `none`.  When several records share the
greatest key the pandas sort order among them is unspecified; this
embedding keeps the earliest such record, which coincides with the code
whenever the greatest key is held by a single record (guaranteed by the
data-model invariant that the accession is unique within a source). -/
def rank_assemblies : List CatalogRecord → Option CatalogRecord
  | [] => none
  | r :: rs => some (rs.foldl betterOf r)

/-- The exact pass `full_df[full_df['organism_name'] == species]`: a NaN
cell compares unequal to any string. -/
def exactMatches (full : List CatalogRecord) (species : String) : List CatalogRecord :=
  full.filter (fun r => decide (r.organism_name = some species))

/-- A token of the regular expression `f"^{genus} "` that the genus
fallback passes to `str.contains(..., regex=True)`: a character of the
genus is either the wildcard `.` or a literal.  This models the regex
fragment the pattern can contain when the genus avoids the other regex
metacharacters. -/
inductive RTok where
  | lit (c : Char)
  | dot
deriving DecidableEq

/-- Compile the genus into regex tokens: `.` is the any-character
wildcard, every other character matches literally. -/
def genusToks (genus : String) : List RTok :=
  genus.data.map (fun c => if c = '.' then RTok.dot else RTok.lit c)

/-- Match a token list against the start of a character list, allowing
arbitrary trailing characters (the pattern is anchored by `^` only).
The wildcard `.` matches any character except a newline, as in Python
`re` without `DOTALL`. -/
def matchToksAt : List RTok → List Char → Bool
  | [], _ => true
  | _ :: _, [] => false
  | RTok.lit c :: ts, x :: xs => c == x && matchToksAt ts xs
  | RTok.dot :: ts, x :: xs => x != '\n' && matchToksAt ts xs

/-- `full_df['organism_name'].str.contains(f"^{genus} ", regex=True,
na=False)` for one cell: NaN yields `False`; otherwise `re.search` of the
pattern `^` + genus + one space, which (being anchored and not multiline)
succeeds exactly on a match at the start of the string.  This total
function is exact for genus tokens satisfying `tameGenus` (only
regex-literal characters and the fully modelled wildcard `.`): a genus
containing another special character is matched by the code under that
character's regex meaning, which is not modelled here, and a genus whose
pattern does not even compile makes the code raise `re.error` instead of
returning a Boolean (see `genusRaisesRegexError` and `resolveE`). -/
def pyGenusSearch (genus : String) : Option String → Bool
  | none => false
  | some s => matchToksAt (genusToks genus ++ [RTok.lit ' ']) s.data

/-- The genus-fallback subset of `main`.  This is the subset the code
computes whenever the genus satisfies `tameGenus`; for a genus containing
other regex metacharacters it is not the code's subset, and for a genus
whose pattern does not compile the code computes no subset at all (it
raises `re.error`). -/
def genusMatches (full : List CatalogRecord) (genus : String) : List CatalogRecord :=
  full.filter (fun r => pyGenusSearch genus r.organism_name)

/-- A sufficient condition for `re.compile(f"^{genus} ")` to raise
`re.error`: the genus contains an open parenthesis but no close
parenthesis, no backslash that could escape it and no `[` that could put
it inside a character class, so every `(` opens a group that is never
terminated and compilation fails with `missing ), unterminated
subpattern`.  Other invalid genus shapes also raise; they are not needed
by this development and are not modelled. -/
def genusRaisesRegexError (genus : String) : Bool :=
  genus.data.contains '(' && !(genus.data.contains ')') &&
    !(genus.data.contains '\\') && !(genus.data.contains '[')

/-- Python `species.split(" ")` on the character list: split on every
single space, keeping empty fields, never returning an empty list. -/
def splitAux : List Char → List Char → List (List Char)
  | [], acc => [acc.reverse]
  | c :: cs, acc => if c = ' ' then acc.reverse :: splitAux cs [] else splitAux cs (c :: acc)

/-- `species.split(" ")`. -/
def pySplitSpace (s : String) : List String :=
  (splitAux s.data []).map String.mk

/-- The dict appended in both NOT_FOUND branches of `main`:
`{'name': species, 'source': '-', 'accession': '-', 'url': 'N/A',
'status': 'NOT_FOUND', 'level': '-'}`. -/
def notFoundOutcome (species : String) : Outcome :=
  { name := species, source := "-", accession := "-", url := some "N/A",
    status := Status.notFound, level := some "-" }

/-- The dict appended in the exact-match branch of `main`. -/
def exactOutcome (species : String) (best : CatalogRecord) : Outcome :=
  { name := species, source := best.data_source,
    accession := best.assembly_accession, url := best.ftp_path,
    status := Status.exactMatch, level := best.assembly_level }

/-- The dict appended in the genus-fallback branch of `main`; its status
string embeds the winner's `organism_name`. -/
def fallbackOutcome (species : String) (best : CatalogRecord) : Outcome :=
  { name := species, source := best.data_source,
    accession := best.assembly_accession, url := best.ftp_path,
    status := Status.fallback best.organism_name, level := best.assembly_level }

/-- The body of the per-species loop of `main`: try the exact pass
(`if not matches.empty`, i.e. the ranker yields a record exactly when the
subset is non-empty), else the genus fallback guarded by
`len(parts) >= 1 and len(parts[0]) > 2`, else NOT_FOUND.  This function
is total: it is faithful to the program exactly when the genus fallback,
if reached, is reached with a `tameGenus` token; for a genus whose
pattern does not compile the real loop raises `re.error` instead of
producing an outcome — that escape path is modelled by `resolveE`. -/
def resolve (full : List CatalogRecord) (species : String) : Outcome :=
  match rank_assemblies (exactMatches full species) with
  | some best => exactOutcome species best
  | none =>
    if 1 ≤ (pySplitSpace species).length ∧ 2 < ((pySplitSpace species).headD "").length then
      match rank_assemblies (genusMatches full ((pySplitSpace species).headD "")) with
      | some best => fallbackOutcome species best
      | none => notFoundOutcome species
    else notFoundOutcome species

/-- The whole species loop of `main`: one outcome per input name, in
input order.  Inherits the totality caveat of `resolve`: on a name list
containing a name whose genus pattern does not compile, the real program
aborts with no outcomes (see `resolve_allE`), while this function still
yields a full list. -/
def resolve_all (full : List CatalogRecord) (names : List String) : List Outcome :=
  names.map (resolve full)

/-- The body of the per-species loop of `main` with its uncaught
`re.error` escape made explicit: identical to `resolve` except that
reaching the genus fallback with a genus whose pattern does not compile
raises, modelled as `Except.error`; every `Except.ok` branch coincides
with `resolve`. -/
def resolveE (full : List CatalogRecord) (species : String) : Except String Outcome :=
  match rank_assemblies (exactMatches full species) with
  | some best => Except.ok (exactOutcome species best)
  | none =>
    if 1 ≤ (pySplitSpace species).length ∧ 2 < ((pySplitSpace species).headD "").length then
      if genusRaisesRegexError ((pySplitSpace species).headD "") then
        Except.error "re.error: missing ), unterminated subpattern"
      else
        match rank_assemblies (genusMatches full ((pySplitSpace species).headD "")) with
        | some best => Except.ok (fallbackOutcome species best)
        | none => Except.ok (notFoundOutcome species)
    else Except.ok (notFoundOutcome species)

/-- The species loop of `main`, crash-aware: an uncaught `re.error` in
any iteration propagates out of the loop before the report is written,
so one bad name leaves zero outcomes. -/
def resolve_allE (full : List CatalogRecord) (names : List String) :
    Except String (List Outcome) :=
  names.mapM (resolveE full)

/-- The merge step of `main`:
`if not dfs or all(d.empty for d in dfs): sys.exit(...)` followed by
`pd.concat(dfs, ignore_index=True)`.  The `sys.exit` hard stop is the
`Except.error` case. -/
def mergeCatalogs (dfs : List (List CatalogRecord)) : Except String (List CatalogRecord) :=
  if dfs.isEmpty || dfs.all List.isEmpty then
    Except.error "[!] No summary data found. Check internet or group name."
  else
    Except.ok dfs.flatten

/-- Merge followed by the species loop: the part of `main` between
loading and reporting.  When the merge halts, no outcome is produced. -/
def runPipeline (dfs : List (List CatalogRecord)) (names : List String) :
    Except String (List Outcome) :=
  (mergeCatalogs dfs).map (fun full => resolve_all full names)

/-- The species loop together with the unified collection it leaves
behind: `rank_assemblies` works on `group_df.copy()` and the loop only
reads `full_df`, so the collection after the loop is the collection that
entered it. -/
def pipeline_run (full : List CatalogRecord) (names : List String) :
    List Outcome × List CatalogRecord :=
  (resolve_all full names, full)

/-- Literal anchored-prefix matching of a genus against an organism-name
cell, as the specification words it: the name begins with the genus
followed by a space (NaN never matches).  This is the spec-side
counterpart of `pyGenusSearch`, used to compare the code's regex matching
with the specified literal matching. -/
def literalGenusMatch (genus : String) : Option String → Bool
  | none => false
  | some s => List.isPrefixOf (genus.data ++ [' ']) s.data

/-! ### Order lemmas for the sort key -/

theorem lexNat_trans {α : Type} {lt : α → α → Prop}
    (ht : ∀ x y z : α, lt x y → lt y z → lt x z) :
    ∀ a b c : Nat × α, lexNat lt a b → lexNat lt b c → lexNat lt a c := by
  rintro ⟨a1, a2⟩ ⟨b1, b2⟩ ⟨c1, c2⟩ h1 h2
  unfold lexNat at h1 h2 ⊢
  dsimp only at h1 h2 ⊢
  rcases h1 with h1 | ⟨e1, h1⟩ <;> rcases h2 with h2 | ⟨e2, h2⟩
  · exact Or.inl (Nat.lt_trans h1 h2)
  · exact Or.inl (e2 ▸ h1)
  · subst e1; exact Or.inl h2
  · subst e1; exact Or.inr ⟨e2, ht _ _ _ h1 h2⟩

theorem lexNat_irrefl {α : Type} {lt : α → α → Prop}
    (hi : ∀ x : α, ¬ lt x x) : ∀ a : Nat × α, ¬ lexNat lt a a := by
  rintro ⟨a1, a2⟩ h
  unfold lexNat at h
  dsimp only at h
  rcases h with h | ⟨-, h⟩
  · exact Nat.lt_irrefl _ h
  · exact hi _ h

theorem lexNat_trichotomy {α : Type} {lt : α → α → Prop}
    (ht : ∀ x y : α, lt x y ∨ x = y ∨ lt y x) :
    ∀ a b : Nat × α, lexNat lt a b ∨ a = b ∨ lexNat lt b a := by
  rintro ⟨a1, a2⟩ ⟨b1, b2⟩
  unfold lexNat
  dsimp only
  rcases Nat.lt_trichotomy a1 b1 with h | h | h
  · exact Or.inl (Or.inl h)
  · subst h
    rcases ht a2 b2 with h2 | h2 | h2
    · exact Or.inl (Or.inr ⟨rfl, h2⟩)
    · subst h2; exact Or.inr (Or.inl rfl)
    · exact Or.inr (Or.inr (Or.inr ⟨rfl, h2⟩))
  · exact Or.inr (Or.inr (Or.inl h))

theorem strLt_trans : ∀ x y z : String, strLt x y → strLt y z → strLt x z :=
  fun _ _ _ hx hy => lt_trans hx hy

theorem strLt_irrefl : ∀ x : String, ¬ strLt x x := fun x => lt_irrefl x

theorem strLt_trichotomy : ∀ x y : String, strLt x y ∨ x = y ∨ strLt y x :=
  fun x y => lt_trichotomy x y

theorem keyLt_trans {a b c : Nat × Nat × Nat × String}
    (h1 : keyLt a b) (h2 : keyLt b c) : keyLt a c := by
  unfold keyLt at h1 h2 ⊢
  exact lexNat_trans (lexNat_trans (lexNat_trans strLt_trans)) a b c h1 h2

theorem keyLt_irrefl (a : Nat × Nat × Nat × String) : ¬ keyLt a a := by
  unfold keyLt
  exact lexNat_irrefl (lexNat_irrefl (lexNat_irrefl strLt_irrefl)) a

theorem keyLt_trichotomy (a b : Nat × Nat × Nat × String) :
    keyLt a b ∨ a = b ∨ keyLt b a := by
  unfold keyLt
  exact lexNat_trichotomy
    (lexNat_trichotomy (lexNat_trichotomy strLt_trichotomy)) a b

theorem keyLt_connex {a b : Nat × Nat × Nat × String}
    (h1 : ¬ keyLt a b) (h2 : ¬ keyLt b a) : a = b := by
  rcases keyLt_trichotomy a b with h | h | h
  · exact absurd h h1
  · exact h
  · exact absurd h h2

theorem keyGe_trans {a b c : Nat × Nat × Nat × String}
    (h1 : ¬ keyLt a b) (h2 : ¬ keyLt b c) : ¬ keyLt a c := by
  intro hac
  rcases keyLt_trichotomy a b with h | h | h
  · exact h1 h
  · subst h; exact h2 hac
  · exact h2 (keyLt_trans h hac)

/-! ### Lemmas about the ranking fold -/

theorem betterOf_cases (best x : CatalogRecord) :
    betterOf best x = best ∨ betterOf best x = x := by
  unfold betterOf
  split
  · exact Or.inr rfl
  · exact Or.inl rfl

theorem betterOf_notLt_left (best x : CatalogRecord) :
    ¬ keyLt (rankKey (betterOf best x)) (rankKey best) := by
  unfold betterOf
  split
  · rename_i h
    intro h'
    exact keyLt_irrefl _ (keyLt_trans h h')
  · exact keyLt_irrefl _

theorem betterOf_notLt_right (best x : CatalogRecord) :
    ¬ keyLt (rankKey (betterOf best x)) (rankKey x) := by
  unfold betterOf
  split
  · exact keyLt_irrefl _
  · rename_i h
    exact h

theorem foldl_better_mem (rs : List CatalogRecord) (r : CatalogRecord) :
    rs.foldl betterOf r = r ∨ rs.foldl betterOf r ∈ rs := by
  induction rs generalizing r with
  | nil => exact Or.inl rfl
  | cons x xs ih =>
    simp only [List.foldl_cons]
    rcases ih (betterOf r x) with h | h
    · rcases betterOf_cases r x with h' | h'
      · exact Or.inl (h.trans h')
      · refine Or.inr ?_
        rw [h, h']
        exact List.mem_cons_self x xs
    · exact Or.inr (List.mem_cons_of_mem x h)

theorem foldl_better_ge_start (rs : List CatalogRecord) (r : CatalogRecord) :
    ¬ keyLt (rankKey (rs.foldl betterOf r)) (rankKey r) := by
  induction rs generalizing r with
  | nil => exact keyLt_irrefl _
  | cons x xs ih =>
    simp only [List.foldl_cons]
    exact keyGe_trans (ih (betterOf r x)) (betterOf_notLt_left r x)

theorem foldl_better_ge_mem (rs : List CatalogRecord) (r y : CatalogRecord)
    (hy : y ∈ rs) : ¬ keyLt (rankKey (rs.foldl betterOf r)) (rankKey y) := by
  induction rs generalizing r with
  | nil => cases hy
  | cons x xs ih =>
    simp only [List.foldl_cons]
    rcases List.mem_cons.mp hy with h | h
    · subst h
      exact keyGe_trans (foldl_better_ge_start xs (betterOf r y))
        (betterOf_notLt_right r y)
    · exact ih (betterOf r x) h

theorem rank_assemblies_mem {l : List CatalogRecord} {w : CatalogRecord}
    (h : rank_assemblies l = some w) : w ∈ l := by
  cases l with
  | nil => cases h
  | cons r rs =>
    simp only [rank_assemblies, Option.some.injEq] at h
    rcases foldl_better_mem rs r with h' | h'
    · rw [← h, h']; exact List.mem_cons_self r rs
    · rw [← h]; exact List.mem_cons_of_mem r h'

theorem rank_assemblies_max {l : List CatalogRecord} {w : CatalogRecord}
    (h : rank_assemblies l = some w) :
    ∀ r ∈ l, ¬ keyLt (rankKey w) (rankKey r) := by
  cases l with
  | nil => cases h
  | cons r rs =>
    simp only [rank_assemblies, Option.some.injEq] at h
    intro s hs
    rcases List.mem_cons.mp hs with h' | h'
    · subst h'; rw [← h]; exact foldl_better_ge_start rs s
    · rw [← h]; exact foldl_better_ge_mem rs r s h'

theorem rank_assemblies_eq_none_iff (l : List CatalogRecord) :
    rank_assemblies l = none ↔ l = [] := by
  cases l with
  | nil => simp [rank_assemblies]
  | cons r rs => simp [rank_assemblies]

theorem rank_assemblies_isSome {l : List CatalogRecord} (h : l ≠ []) :
    ∃ w, rank_assemblies l = some w := by
  cases l with
  | nil => exact absurd rfl h
  | cons r rs => exact ⟨rs.foldl betterOf r, rfl⟩

theorem src_score_refseq {r : CatalogRecord} (h : r.data_source = "REFSEQ") :
    src_score r = 2 := by
  unfold src_score source_map
  rw [h]
  decide

theorem src_score_genbank {r : CatalogRecord} (h : r.data_source = "GENBANK") :
    src_score r = 1 := by
  unfold src_score source_map
  rw [h]
  decide

/-- The record of the specification's tie-break example:
A(cat=reference, level=Scaffold, source=GENBANK, acc=GCA_2), with the
organism name `Zea mays` used by the matching examples. -/
def recA : CatalogRecord :=
  { organism_name := some "Zea mays", assembly_accession := "GCA_2",
    refseq_category := some "reference genome", assembly_level := some "Scaffold",
    ftp_path := some "ftp://example/a", data_source := "GENBANK" }

/-- The record of the specification's tie-break example:
B(cat=reference, level=Scaffold, source=REFSEQ, acc=GCA_1). -/
def recB : CatalogRecord :=
  { organism_name := some "Zea mays", assembly_accession := "GCA_1",
    refseq_category := some "reference genome", assembly_level := some "Scaffold",
    ftp_path := some "ftp://example/b", data_source := "REFSEQ" }

/-- The `name` field of every outcome is the unmodified input string. -/
theorem resolve_name_eq (full : List CatalogRecord) (species : String) :
    (resolve full species).name = species := by
  unfold resolve
  split
  · rfl
  · split
    · split <;> rfl
    · rfl

/-! ### Claim theorems -/

/-- C1: on every non-empty candidate subset, `rank_assemblies` returns a
record of the subset whose 4-tuple `(cat_score, lvl_score, src_score,
assembly_accession)` is lexicographically greatest (no other record's key
exceeds it), with the scores given by the `cat_map`, `level_map` and
`source_map` tables and missing or unknown values scoring 0; in
particular a REFSEQ record's key strictly exceeds a GENBANK record's key
whenever the two tie on category score and level score. -/
theorem rank_assemblies_returns_lex_greatest (l : List CatalogRecord) (hne : l ≠ []) :
    ∃ w, rank_assemblies l = some w ∧ w ∈ l ∧
      (∀ r ∈ l, ¬ keyLt (rankKey w) (rankKey r)) ∧
      (∀ r1 r2 : CatalogRecord, cat_score r1 = cat_score r2 →
        lvl_score r1 = lvl_score r2 → r1.data_source = "REFSEQ" →
        r2.data_source = "GENBANK" → keyLt (rankKey r2) (rankKey r1)) := by
  obtain ⟨w, hw⟩ := rank_assemblies_isSome hne
  refine ⟨w, hw, rank_assemblies_mem hw, rank_assemblies_max hw, ?_⟩
  intro r1 r2 hc hl h1 h2
  have hs1 : src_score r1 = 2 := src_score_refseq h1
  have hs2 : src_score r2 = 1 := src_score_genbank h2
  unfold keyLt lexNat rankKey
  dsimp only
  refine Or.inr ⟨hc.symm, Or.inr ⟨hl.symm, Or.inl ?_⟩⟩
  rw [hs1, hs2]
  exact Nat.one_lt_two

/-- Witness for C1 at the specification's tie-break example subset. -/
theorem rank_assemblies_returns_lex_greatest_witness :
    ([recA, recB] : List CatalogRecord) ≠ [] ∧
    (∃ w, rank_assemblies [recA, recB] = some w ∧ w ∈ [recA, recB] ∧
      (∀ r ∈ [recA, recB], ¬ keyLt (rankKey w) (rankKey r)) ∧
      (∀ r1 r2 : CatalogRecord, cat_score r1 = cat_score r2 →
        lvl_score r1 = lvl_score r2 → r1.data_source = "REFSEQ" →
        r2.data_source = "GENBANK" → keyLt (rankKey r2) (rankKey r1))) :=
  ⟨by decide, rank_assemblies_returns_lex_greatest [recA, recB] (by decide)⟩

/-- C2: `rank_assemblies` is invariant under permutation of its candidate
subset, for subsets satisfying the data-model invariant that the
accession identifies a record within a source and that every record is
tagged REFSEQ or GENBANK. -/
theorem rank_assemblies_perm_invariant (S Sp : List CatalogRecord) (hperm : S.Perm Sp)
    (huniq : ∀ r1 ∈ S, ∀ r2 ∈ S, r1.data_source = r2.data_source →
      r1.assembly_accession = r2.assembly_accession → r1 = r2)
    (hsrc : ∀ r ∈ S, r.data_source = "REFSEQ" ∨ r.data_source = "GENBANK") :
    rank_assemblies S = rank_assemblies Sp := by
  cases hS : rank_assemblies S with
  | none =>
    have h : S = [] := (rank_assemblies_eq_none_iff S).mp hS
    subst h
    have h2 : Sp = [] := hperm.symm.eq_nil
    rw [h2]
    rfl
  | some w =>
    have hSp_ne : Sp ≠ [] := by
      intro h
      rw [h] at hperm
      have : S = [] := hperm.eq_nil
      rw [this] at hS
      cases hS
    obtain ⟨w2, hw2⟩ := rank_assemblies_isSome hSp_ne
    rw [hw2]
    have hw_mem : w ∈ S := rank_assemblies_mem hS
    have hw2_mem : w2 ∈ S := hperm.mem_iff.mpr (rank_assemblies_mem hw2)
    have h1 : ¬ keyLt (rankKey w) (rankKey w2) := rank_assemblies_max hS w2 hw2_mem
    have h2 : ¬ keyLt (rankKey w2) (rankKey w) :=
      rank_assemblies_max hw2 w (hperm.subset hw_mem)
    have hkey : rankKey w = rankKey w2 := keyLt_connex h1 h2
    have hacc : w.assembly_accession = w2.assembly_accession :=
      congrArg (fun k => k.2.2.2) hkey
    have hsc : src_score w = src_score w2 := congrArg (fun k => k.2.2.1) hkey
    have hds : w.data_source = w2.data_source := by
      rcases hsrc w hw_mem with h | h <;> rcases hsrc w2 hw2_mem with h' | h'
      · rw [h, h']
      · rw [src_score_refseq h, src_score_genbank h'] at hsc; omega
      · rw [src_score_genbank h, src_score_refseq h'] at hsc; omega
      · rw [h, h']
    exact congrArg some (huniq w hw_mem w2 hw2_mem hds hacc)

/-- Witness for C2: swapping the two records of the tie-break example
does not change the winner. -/
theorem rank_assemblies_perm_invariant_witness :
    ([recA, recB] : List CatalogRecord).Perm [recB, recA] ∧
    rank_assemblies [recA, recB] = rank_assemblies [recB, recA] :=
  ⟨List.Perm.swap recB recA [],
   rank_assemblies_perm_invariant [recA, recB] [recB, recA]
     (List.Perm.swap recB recA []) (by decide) (by decide)⟩

/-- C3 (code evaluated at the failing input): for the target name
`Z.a mays` the genus token is `Z.a`; no record named `Zea mays` begins
with the literal string `Z.a` followed by a space, so the claimed
candidate set is empty, yet the code's fallback — which interpolates the
genus into a regular expression unescaped, so that `.` matches any
character — selects the `Zea mays` record and produces a FALLBACK
outcome. -/
theorem genus_fallback_regex_injection :
    exactMatches [recA] "Z.a mays" = [] ∧
    literalGenusMatch "Z.a" recA.organism_name = false ∧
    genusMatches [recA] "Z.a" = [recA] ∧
    (resolve [recA] "Z.a mays").status = Status.fallback (some "Zea mays") := by
  decide

/-- C4: whenever the exact pass is non-empty, the outcome is built from
the ranker's winner over exactly that subset, its status is EXACT_MATCH,
and the outcome depends only on the exact-match subset: any collection
with the same exact-match subset yields the same outcome, so the genus
fallback never influences it. -/
theorem exact_match_priority (full : List CatalogRecord) (species : String)
    (hne : exactMatches full species ≠ []) :
    ∃ best, rank_assemblies (exactMatches full species) = some best ∧
      resolve full species = exactOutcome species best ∧
      (resolve full species).status = Status.exactMatch ∧
      ∀ full2 : List CatalogRecord,
        exactMatches full2 species = exactMatches full species →
        resolve full2 species = resolve full species := by
  obtain ⟨best, hbest⟩ := rank_assemblies_isSome hne
  have hres : resolve full species = exactOutcome species best := by
    unfold resolve
    rw [hbest]
  refine ⟨best, hbest, hres, by rw [hres]; rfl, ?_⟩
  intro full2 h2
  have hb2 : rank_assemblies (exactMatches full2 species) = some best := by
    rw [h2, hbest]
  unfold resolve
  rw [hb2, hbest]

/-- Witness for C4 on a singleton collection holding a `Zea mays`
record. -/
theorem exact_match_priority_witness :
    exactMatches [recA] "Zea mays" ≠ [] ∧
    (∃ best, rank_assemblies (exactMatches [recA] "Zea mays") = some best ∧
      resolve [recA] "Zea mays" = exactOutcome "Zea mays" best ∧
      (resolve [recA] "Zea mays").status = Status.exactMatch ∧
      ∀ full2 : List CatalogRecord,
        exactMatches full2 "Zea mays" = exactMatches [recA] "Zea mays" →
        resolve full2 "Zea mays" = resolve [recA] "Zea mays") :=
  ⟨by decide, exact_match_priority [recA] "Zea mays" (by decide)⟩

/-- C6: when every per-source collection is empty the pipeline halts with
the fatal error and produces no outcomes; when at least one is non-empty
the merge succeeds, the empty collections are absorbed, and the species
loop runs over the concatenation. -/
theorem merge_all_empty_halts (dfs : List (List CatalogRecord)) (names : List String) :
    ((∀ d ∈ dfs, d = []) →
      runPipeline dfs names =
        Except.error "[!] No summary data found. Check internet or group name.") ∧
    ((∃ d ∈ dfs, d ≠ []) →
      runPipeline dfs names = Except.ok (resolve_all dfs.flatten names)) := by
  constructor
  · intro h
    unfold runPipeline mergeCatalogs
    rw [if_pos]
    · rfl
    · simp only [Bool.or_eq_true, List.all_eq_true, List.isEmpty_iff]
      exact Or.inr h
  · rintro ⟨d, hd, hne⟩
    unfold runPipeline mergeCatalogs
    rw [if_neg]
    · rfl
    · intro hcontra
      simp only [Bool.or_eq_true, List.all_eq_true, List.isEmpty_iff] at hcontra
      rcases hcontra with h | h
      · rw [h] at hd
        cases hd
      · exact hne (h d hd)

/-- Witness for C6: two empty sources halt; an empty source next to a
non-empty one is absorbed. -/
theorem merge_all_empty_halts_witness :
    runPipeline [[], []] ["Zea mays"] =
      Except.error "[!] No summary data found. Check internet or group name." ∧
    runPipeline [[], [recA]] ["Zea mays"] =
      Except.ok (resolve_all ([[], [recA]] : List (List CatalogRecord)).flatten ["Zea mays"]) :=
  ⟨(merge_all_empty_halts [[], []] ["Zea mays"]).1 (by decide),
   (merge_all_empty_halts [[], [recA]] ["Zea mays"]).2 ⟨[recA], by decide, by decide⟩⟩

/-- C7 (code evaluated at the failing input): the name sequence
`["Zea mays", "Ab( x"]` has two names, and over a collection holding one
`Zea mays` record the first name alone resolves to an exact-match
outcome; yet the full run produces zero outcomes, not two: the second
name has no exact match, its genus token `Ab(` reaches the fallback, and
the unescaped interpolation of `Ab(` into the regular expression makes
`re.compile` raise `re.error`, aborting the loop before any outcome is
reported. -/
theorem resolve_all_regex_error_aborts :
    resolve_allE [recA] ["Zea mays"] = Except.ok [exactOutcome "Zea mays" recA] ∧
    resolve_allE [recA] ["Zea mays", "Ab( x"] =
      Except.error "re.error: missing ), unterminated subpattern" ∧
    (["Zea mays", "Ab( x"] : List String).length = 2 :=
  ⟨rfl, rfl, rfl⟩

/-- C8: running the species loop twice over the same collection yields
the same outcome sequence, the loop leaves the collection exactly as it
found it, and the ranker only ever returns a record of its input subset
(it fabricates and modifies nothing). -/
theorem resolve_all_idempotent (full : List CatalogRecord) (names : List String) :
    (pipeline_run full names).2 = full ∧
    (pipeline_run (pipeline_run full names).2 names).1 = (pipeline_run full names).1 ∧
    ∀ l : List CatalogRecord, ∀ w : CatalogRecord,
      rank_assemblies l = some w → w ∈ l :=
  ⟨rfl, rfl, fun _ _ h => rank_assemblies_mem h⟩

/-- Witness for C8 on a singleton collection. -/
theorem resolve_all_idempotent_witness :
    (pipeline_run [recA] ["Zea mays"]).2 = [recA] ∧
    (pipeline_run (pipeline_run [recA] ["Zea mays"]).2 ["Zea mays"]).1 =
      (pipeline_run [recA] ["Zea mays"]).1 ∧
    recA ∈ [recA] :=
  ⟨(resolve_all_idempotent [recA] ["Zea mays"]).1,
   (resolve_all_idempotent [recA] ["Zea mays"]).2.1,
   (resolve_all_idempotent [recA] ["Zea mays"]).2.2 [recA] recA (by decide)⟩

/-- C10: a record whose organism-name cell is missing is selected by
neither matching pass: it is excluded from the exact-match subset and
from the genus-fallback subset, for every target name and genus. -/
theorem missing_organism_name_never_selected (full : List CatalogRecord)
    (species genus : String) (r : CatalogRecord) :
    (r ∈ exactMatches full species → r.organism_name ≠ none) ∧
    (r ∈ genusMatches full genus → r.organism_name ≠ none) := by
  constructor
  · intro hmem
    have hp := (List.mem_filter.mp hmem).2
    have he : r.organism_name = some species := of_decide_eq_true hp
    rw [he]
    intro h
    cases h
  · intro hmem hnone
    have hp := (List.mem_filter.mp hmem).2
    rw [hnone] at hp
    simp [pyGenusSearch] at hp

/-- Witness for C10: the `Zea mays` record is a member of both concrete
subsets, hence has a present organism name. -/
theorem missing_organism_name_never_selected_witness :
    recA ∈ exactMatches [recA] "Zea mays" ∧ recA.organism_name ≠ none :=
  ⟨by decide,
   (missing_organism_name_never_selected [recA] "Zea mays" "Zea" recA).1 (by decide)⟩

end TaxoFetch
